import Mathlib

/-!
Verification of the EIP-6963 provider discovery bridge
(`src/packages/web3/src/web3_eip6963.ts`).

The source module keeps one module-level `Map` (`eip6963Providers`), and one
operation `requestEIP6963Providers` that (1) throws when `window` is absent,
(2) attaches an announce-event listener whose body is
`eip6963Providers.set(event.detail.info.uuid, event.detail)`,
(3) dispatches a plain `Event` with the request type tag, and
(4) returns the module-level map itself.

The embedding models the mutable module/window state explicitly
(`SysState`): the registry contents, the number of announce listeners
attached to the window, and the log of events dispatched by this module.
Announce events delivered synchronously while the request dispatch is on the
stack are passed as an explicit list to the operation.
-/

set_option autoImplicit false

namespace Web3EIP6963

/-- JS `Map.prototype.set` on an association list: replace the value at the
first occurrence of the key, keeping its position; append when absent. -/
def mapSet {κ β : Type} [DecidableEq κ] : List (κ × β) → κ → β → List (κ × β)
  | [], k, v => [(k, v)]
  | p :: m, k, v => if p.1 = k then (k, v) :: m else p :: mapSet m k v

/-- JS `Map.prototype.get`: value at the first occurrence of the key. -/
def mapGet {κ β : Type} [DecidableEq κ] : List (κ × β) → κ → Option β
  | [], _ => none
  | p :: m, k => if p.1 = k then some p.2 else mapGet m k

/-- All entries stored under a given key (a real `Map` has at most one). -/
def entriesFor {κ β : Type} [DecidableEq κ] (m : List (κ × β)) (k : κ) : List (κ × β) :=
  m.filter (fun p => decide (p.1 = k))

/-- Source `interface EIP6963ProviderInfo`. -/
structure EIP6963ProviderInfo where
  uuid : String
  name : String
  icon : String
  rdns : String
deriving DecidableEq

/-- Source `interface EIP6963ProviderDetail<API>`: provider metadata plus an
uninterpreted `EIP1193Provider` handle, modelled by a type parameter the
registry never inspects. -/
structure EIP6963ProviderDetail (α : Type) where
  info : EIP6963ProviderInfo
  provider : α
deriving DecidableEq

/-- Source `enum Eip6963EventName`. -/
inductive Eip6963EventName where
  | eip6963announceProvider
  | eip6963requestProvider
deriving DecidableEq

/-- The string value of each enum member, exactly as in the source. -/
def Eip6963EventName.value : Eip6963EventName → String
  | .eip6963announceProvider => "eip6963:announceProvider"
  | .eip6963requestProvider => "eip6963:requestProvider"

/-- Source `interface EIP6963AnnounceProviderEvent<API>`: a `CustomEvent`
with the announce type tag; only its `detail` payload is read by the
listener. -/
structure EIP6963AnnounceProviderEvent (α : Type) where
  detail : EIP6963ProviderDetail α
deriving DecidableEq

/-- A plain DOM event as built by `new Event(name)`: it carries nothing but
its type tag. -/
structure PlainEvent where
  type : String
deriving DecidableEq

/-- The JS error values the listener or the operation can throw. -/
inductive JsError where
  | error (msg : String)
  | typeError
deriving DecidableEq

/-- The message of the `Error` thrown when `window` is undefined. -/
def windowErrorMessage : String :=
  "window object not available, EIP-6963 is intended to be used within a browser"

/-- References to module-level `Map` objects; the module owns exactly one,
`eip6963Providers`. -/
inductive MapRef where
  | eip6963Providers
deriving DecidableEq

/-- Mutable state: the module-level registry, the number of announce
listeners attached to `window`, and the events this module dispatched. -/
structure SysState (α : Type) where
  registry : List (String × EIP6963ProviderDetail α)
  announceListeners : Nat
  dispatched : List PlainEvent
deriving DecidableEq

/-- Module initialization: `eip6963Providers = new Map()`, nothing attached,
nothing dispatched. -/
def initialState (α : Type) : SysState α := SysState.mk [] 0 []

/-- Dereference a map reference in a given state. -/
def readRef {α : Type} (st : SysState α) : MapRef → List (String × EIP6963ProviderDetail α)
  | .eip6963Providers => st.registry

/-- The body of the announce listener:
`eip6963Providers.set(event.detail.info.uuid, event.detail)`. -/
def announceListenerEffect {α : Type} (reg : List (String × EIP6963ProviderDetail α))
    (e : EIP6963AnnounceProviderEvent α) : List (String × EIP6963ProviderDetail α) :=
  mapSet reg e.detail.info.uuid e.detail

/-- Delivery of one announce event on `window`: every attached announce
listener runs once; each attached listener is a copy of the same closure, so
the listener body is applied once per attached listener. -/
def processAnnounceEvent {α : Type} (st : SysState α) (e : EIP6963AnnounceProviderEvent α) :
    SysState α :=
  SysState.mk ((fun r => announceListenerEffect r e)^[st.announceListeners] st.registry)
    st.announceListeners st.dispatched

/-- The operation `requestEIP6963Providers`: throw when `window` is absent; otherwise
`addEventListener` (one more announce listener), `dispatchEvent(new
Event(eip6963requestProvider))` (logged, and any announce events dispatched
synchronously by announcers during that dispatch are processed), then return
the module-level map `eip6963Providers`. -/
def requestEIP6963Providers {α : Type} (windowAvailable : Bool)
    (sync : List (EIP6963AnnounceProviderEvent α)) (st : SysState α) :
    SysState α × Except JsError MapRef :=
  if windowAvailable then
    (sync.foldl processAnnounceEvent
      (SysState.mk st.registry (st.announceListeners + 1)
        (st.dispatched ++ [PlainEvent.mk (Eip6963EventName.value Eip6963EventName.eip6963requestProvider)])),
     Except.ok MapRef.eip6963Providers)
  else
    (st, Except.error (JsError.error windowErrorMessage))

/-- State after n discovery calls on a fresh module, none of them with a
synchronous announcer. -/
def discoverN (α : Type) : Nat → SysState α
  | 0 => initialState α
  | n + 1 => (requestEIP6963Providers true [] (discoverN α n)).1

/-- Untyped JS runtime values, for events built by third-party announcers
outside the TypeScript types (the source casts with `as any` in
`addEventListener`). -/
inductive JsValue where
  | undefined
  | jsString (s : String)
  | jsNumber (n : Int)
deriving DecidableEq

/-- An `info` object as the runtime sees it: reading `uuid` yields whatever
value the property holds, `undefined` when absent or ill-typed. -/
structure JsInfoObj where
  uuid : JsValue
deriving DecidableEq

/-- A runtime `detail` object: the `info` property may be absent. -/
structure JsDetailObj (α : Type) where
  info : Option JsInfoObj
  provider : Option α
deriving DecidableEq

/-- A runtime announce event: `detail` is `null` when the announcer
dispatched a plain `Event` or an empty `CustomEvent`. -/
structure JsAnnounceEvent (α : Type) where
  detail : Option (JsDetailObj α)
deriving DecidableEq

/-- The announce listener under JS runtime semantics: evaluating
`event.detail.info.uuid` throws `TypeError` when `detail` is `null` or its
`info` property is absent; otherwise `Map.set` stores the pair as-is,
whatever value `uuid` holds. -/
def announceListenerJs {α : Type} (reg : List (JsValue × JsDetailObj α))
    (e : JsAnnounceEvent α) : Except JsError (List (JsValue × JsDetailObj α)) :=
  match e.detail with
  | none => Except.error JsError.typeError
  | some d =>
    match d.info with
    | none => Except.error JsError.typeError
    | some i => Except.ok (mapSet reg i.uuid d)

/-- Key–value consistency: every entry is keyed by the uuid of its detail. -/
def keyConsistent {α : Type} (m : List (String × EIP6963ProviderDetail α)) : Prop :=
  ∀ p ∈ m, p.1 = p.2.info.uuid

/-- The state right after `addEventListener` and the request dispatch, before
any synchronous announce event is processed: one more listener, the request
event logged, registry untouched. -/
def afterDispatch {α : Type} (st : SysState α) : SysState α :=
  SysState.mk st.registry (st.announceListeners + 1)
    (st.dispatched ++ [PlainEvent.mk (Eip6963EventName.value Eip6963EventName.eip6963requestProvider)])

theorem mapGet_mapSet_self {κ β : Type} [DecidableEq κ] (m : List (κ × β)) (k : κ) (v : β) :
    mapGet (mapSet m k v) k = some v := by
  induction m with
  | nil => simp [mapSet, mapGet]
  | cons p t ih =>
    by_cases h : p.1 = k
    · simp [mapSet, mapGet, h]
    · simp [mapSet, mapGet, h, ih]

theorem mapGet_mapSet_ne {κ β : Type} [DecidableEq κ] (m : List (κ × β)) (k : κ) (v : β)
    (q : κ) (hq : q ≠ k) : mapGet (mapSet m k v) q = mapGet m q := by
  induction m with
  | nil => simp [mapSet, mapGet, Ne.symm hq]
  | cons p t ih =>
    by_cases h : p.1 = k
    · have hpq : p.1 ≠ q := by rw [h]; exact Ne.symm hq
      simp [mapSet, mapGet, h, hpq, Ne.symm hq]
    · by_cases hpq : p.1 = q
      · simp [mapSet, mapGet, h, hpq, hq]
      · simp [mapSet, mapGet, h, hpq, ih]

theorem mapGet_mapSet_of_isSome {κ β : Type} [DecidableEq κ] (m : List (κ × β)) (k : κ) (v : β)
    (q : κ) (h : ∃ d, mapGet m q = some d) : ∃ d, mapGet (mapSet m k v) q = some d := by
  by_cases hq : q = k
  · subst hq; exact ⟨v, mapGet_mapSet_self m q v⟩
  · rw [mapGet_mapSet_ne m k v q hq]; exact h

theorem mapSet_mapSet_self {κ β : Type} [DecidableEq κ] (m : List (κ × β)) (k : κ) (v w : β) :
    mapSet (mapSet m k v) k w = mapSet m k w := by
  induction m with
  | nil => simp [mapSet]
  | cons p t ih =>
    by_cases h : p.1 = k
    · simp [mapSet, h]
    · simp [mapSet, h, ih]

theorem mapSet_of_not_mem_keys {κ β : Type} [DecidableEq κ] (m : List (κ × β)) (k : κ) (v : β)
    (h : k ∉ m.map Prod.fst) : mapSet m k v = m ++ [(k, v)] := by
  induction m with
  | nil => rfl
  | cons p t ih =>
    simp only [List.map_cons, List.mem_cons] at h
    push_neg at h
    simp [mapSet, Ne.symm h.1, ih h.2]

theorem keys_mapSet {κ β : Type} [DecidableEq κ] (m : List (κ × β)) (k : κ) (v : β) :
    (mapSet m k v).map Prod.fst =
      if k ∈ m.map Prod.fst then m.map Prod.fst else m.map Prod.fst ++ [k] := by
  induction m with
  | nil => simp [mapSet]
  | cons p t ih =>
    by_cases h : p.1 = k
    · simp [mapSet, h]
    · by_cases hmem : k ∈ t.map Prod.fst
      · simp [mapSet, h, ih, hmem, Ne.symm h]
      · simp [mapSet, h, ih, hmem, Ne.symm h]

theorem keysNodup_mapSet {κ β : Type} [DecidableEq κ] (m : List (κ × β)) (k : κ) (v : β)
    (h : (m.map Prod.fst).Nodup) : ((mapSet m k v).map Prod.fst).Nodup := by
  rw [keys_mapSet]
  by_cases hmem : k ∈ m.map Prod.fst
  · simpa [hmem] using h
  · simp only [hmem, if_false]
    rw [List.nodup_append]
    refine ⟨h, List.nodup_singleton k, ?_⟩
    intro a ha hb
    simp only [List.mem_singleton] at hb
    exact hmem (hb ▸ ha)

theorem entriesFor_eq_nil_of_not_mem {κ β : Type} [DecidableEq κ] (m : List (κ × β)) (k : κ)
    (h : k ∉ m.map Prod.fst) : entriesFor m k = [] := by
  induction m with
  | nil => rfl
  | cons p t ih =>
    simp only [List.map_cons, List.mem_cons] at h
    push_neg at h
    have ht := ih h.2
    simpa [entriesFor, Ne.symm h.1] using ht

theorem entriesFor_mapSet_self {κ β : Type} [DecidableEq κ] (m : List (κ × β)) (k : κ) (v : β)
    (h : (m.map Prod.fst).Nodup) : entriesFor (mapSet m k v) k = [(k, v)] := by
  induction m with
  | nil => simp [mapSet, entriesFor]
  | cons p t ih =>
    simp only [List.map_cons, List.nodup_cons] at h
    by_cases hp : p.1 = k
    · have ht : k ∉ t.map Prod.fst := hp ▸ h.1
      simp [mapSet, entriesFor, hp]
      have := entriesFor_eq_nil_of_not_mem t k ht
      simpa [entriesFor] using this
    · have ht := ih h.2
      simpa [mapSet, entriesFor, hp] using ht

theorem iterate_of_idem {β : Type} (f : β → β) (hf : ∀ x, f (f x) = f x) (n : Nat) (x : β) :
    f^[n] (f x) = f x := by
  induction n with
  | zero => rfl
  | succ m ih => rw [Function.iterate_succ_apply, hf, ih]

theorem announceListenerEffect_idem {α : Type} (r : List (String × EIP6963ProviderDetail α))
    (e : EIP6963AnnounceProviderEvent α) :
    announceListenerEffect (announceListenerEffect r e) e = announceListenerEffect r e :=
  mapSet_mapSet_self r e.detail.info.uuid e.detail e.detail

theorem processAnnounceEvent_announceListeners {α : Type} (st : SysState α)
    (e : EIP6963AnnounceProviderEvent α) :
    (processAnnounceEvent st e).announceListeners = st.announceListeners := rfl

theorem processAnnounceEvent_dispatched {α : Type} (st : SysState α)
    (e : EIP6963AnnounceProviderEvent α) :
    (processAnnounceEvent st e).dispatched = st.dispatched := rfl

theorem processAnnounceEvent_registry {α : Type} (st : SysState α)
    (e : EIP6963AnnounceProviderEvent α) (h : 0 < st.announceListeners) :
    (processAnnounceEvent st e).registry = announceListenerEffect st.registry e := by
  obtain ⟨m, hm⟩ : ∃ m, st.announceListeners = m + 1 := ⟨st.announceListeners - 1, by omega⟩
  show (fun r => announceListenerEffect r e)^[st.announceListeners] st.registry = _
  rw [hm, Function.iterate_succ_apply]
  exact iterate_of_idem (fun r => announceListenerEffect r e)
    (fun r => announceListenerEffect_idem r e) m st.registry

theorem processAnnounceEvent_registry_zero {α : Type} (st : SysState α)
    (e : EIP6963AnnounceProviderEvent α) (h : st.announceListeners = 0) :
    (processAnnounceEvent st e).registry = st.registry := by
  show (fun r => announceListenerEffect r e)^[st.announceListeners] st.registry = _
  rw [h]; rfl

theorem foldl_process_announceListeners {α : Type} (l : List (EIP6963AnnounceProviderEvent α)) :
    ∀ st : SysState α, (l.foldl processAnnounceEvent st).announceListeners = st.announceListeners := by
  induction l with
  | nil => intro st; rfl
  | cons e t ih => intro st; rw [List.foldl_cons, ih, processAnnounceEvent_announceListeners]

theorem foldl_process_dispatched {α : Type} (l : List (EIP6963AnnounceProviderEvent α)) :
    ∀ st : SysState α, (l.foldl processAnnounceEvent st).dispatched = st.dispatched := by
  induction l with
  | nil => intro st; rfl
  | cons e t ih => intro st; rw [List.foldl_cons, ih, processAnnounceEvent_dispatched]

theorem iterate_effect_preserves {α : Type} (e : EIP6963AnnounceProviderEvent α) (n : Nat)
    (r : List (String × EIP6963ProviderDetail α)) (k : String)
    (h : ∃ d, mapGet r k = some d) :
    ∃ d, mapGet ((fun x => announceListenerEffect x e)^[n] r) k = some d := by
  induction n with
  | zero => exact h
  | succ m ih =>
    rw [Function.iterate_succ_apply']
    exact mapGet_mapSet_of_isSome _ e.detail.info.uuid e.detail k ih

theorem processAnnounceEvent_preserves {α : Type} (st : SysState α)
    (e : EIP6963AnnounceProviderEvent α) (k : String)
    (h : ∃ d, mapGet st.registry k = some d) :
    ∃ d, mapGet ((processAnnounceEvent st e).registry) k = some d :=
  iterate_effect_preserves e st.announceListeners st.registry k h

theorem foldl_process_preserves {α : Type} (l : List (EIP6963AnnounceProviderEvent α)) :
    ∀ (st : SysState α) (k : String), (∃ d, mapGet st.registry k = some d) →
      ∃ d, mapGet ((l.foldl processAnnounceEvent st).registry) k = some d := by
  induction l with
  | nil => intro st k h; exact h
  | cons e t ih =>
    intro st k h
    rw [List.foldl_cons]
    exact ih (processAnnounceEvent st e) k (processAnnounceEvent_preserves st e k h)

theorem foldl_process_mem {α : Type} (l : List (EIP6963AnnounceProviderEvent α)) :
    ∀ st : SysState α, 0 < st.announceListeners → ∀ e ∈ l,
      ∃ d, mapGet ((l.foldl processAnnounceEvent st).registry) e.detail.info.uuid = some d := by
  induction l with
  | nil => intro st _ e he; cases he
  | cons e1 t ih =>
    intro st hL e he
    rcases List.mem_cons.mp he with heq | ht
    · subst heq
      rw [List.foldl_cons]
      refine foldl_process_preserves t (processAnnounceEvent st e) e.detail.info.uuid ?_
      rw [processAnnounceEvent_registry st e hL]
      exact ⟨e.detail, mapGet_mapSet_self st.registry e.detail.info.uuid e.detail⟩
    · rw [List.foldl_cons]
      refine ih (processAnnounceEvent st e1) ?_ e ht
      rw [processAnnounceEvent_announceListeners]
      exact hL

theorem foldl_process_fresh {α : Type} (l : List (EIP6963AnnounceProviderEvent α)) :
    ∀ st : SysState α, 0 < st.announceListeners →
      (l.map (fun e => e.detail.info.uuid)).Nodup →
      (∀ e ∈ l, e.detail.info.uuid ∉ st.registry.map Prod.fst) →
      (l.foldl processAnnounceEvent st).registry.map Prod.fst
        = st.registry.map Prod.fst ++ l.map (fun e => e.detail.info.uuid) ∧
      (l.foldl processAnnounceEvent st).registry.length = st.registry.length + l.length := by
  induction l with
  | nil => intro st _ _ _; simp
  | cons e t ih =>
    intro st hL hN hF
    have hfresh : e.detail.info.uuid ∉ st.registry.map Prod.fst :=
      hF e (List.mem_cons_self e t)
    have hreg : (processAnnounceEvent st e).registry
        = st.registry ++ [(e.detail.info.uuid, e.detail)] := by
      rw [processAnnounceEvent_registry st e hL]
      exact mapSet_of_not_mem_keys st.registry e.detail.info.uuid e.detail hfresh
    simp only [List.map_cons, List.nodup_cons] at hN
    have hL' : 0 < (processAnnounceEvent st e).announceListeners := by
      rw [processAnnounceEvent_announceListeners]; exact hL
    have hF' : ∀ e' ∈ t, e'.detail.info.uuid ∉ (processAnnounceEvent st e).registry.map Prod.fst := by
      intro e' he'
      rw [hreg]
      simp only [List.map_append, List.mem_append, List.map_cons, List.map_nil,
        List.mem_singleton]
      push_neg
      refine ⟨hF e' (List.mem_cons_of_mem e he'), ?_⟩
      intro hcontra
      exact hN.1 (hcontra ▸ List.mem_map_of_mem (fun x => x.detail.info.uuid) he')
    obtain ⟨hk, hl⟩ := ih (processAnnounceEvent st e) hL' hN.2 hF'
    constructor
    · rw [List.foldl_cons, hk, hreg]
      simp [List.append_assoc]
    · rw [List.foldl_cons, hl, hreg]
      simp only [List.length_append, List.length_cons, List.length_nil, List.length_map]
      omega

theorem requestEIP6963Providers_true_eq {α : Type}
    (sync : List (EIP6963AnnounceProviderEvent α)) (st : SysState α) :
    requestEIP6963Providers true sync st
      = (sync.foldl processAnnounceEvent (afterDispatch st), Except.ok MapRef.eip6963Providers) :=
  rfl

theorem requestEIP6963Providers_true_announceListeners {α : Type}
    (sync : List (EIP6963AnnounceProviderEvent α)) (st : SysState α) :
    ((requestEIP6963Providers true sync st).1).announceListeners = st.announceListeners + 1 := by
  rw [requestEIP6963Providers_true_eq]
  exact foldl_process_announceListeners sync (afterDispatch st)

theorem keyConsistent_mapSet {α : Type} (m : List (String × EIP6963ProviderDetail α))
    (v : EIP6963ProviderDetail α) (h : keyConsistent m) :
    keyConsistent (mapSet m v.info.uuid v) := by
  induction m with
  | nil =>
    intro p hp
    simp [mapSet] at hp
    subst hp
    rfl
  | cons q t ih =>
    have htail : keyConsistent t := fun r hr => h r (List.mem_cons_of_mem q hr)
    by_cases hq : q.1 = v.info.uuid
    · intro p hp
      simp only [mapSet, if_pos hq] at hp
      rcases List.mem_cons.mp hp with hp | hp
      · subst hp; rfl
      · exact h p (List.mem_cons_of_mem q hp)
    · intro p hp
      simp only [mapSet, if_neg hq] at hp
      rcases List.mem_cons.mp hp with hp | hp
      · rw [hp]; exact h q (List.mem_cons_self q t)
      · exact ih htail p hp

theorem keyConsistent_iterate {α : Type} (e : EIP6963AnnounceProviderEvent α) (n : Nat)
    (r : List (String × EIP6963ProviderDetail α)) (h : keyConsistent r) :
    keyConsistent ((fun x => announceListenerEffect x e)^[n] r) := by
  induction n with
  | zero => exact h
  | succ m ih =>
    rw [Function.iterate_succ_apply']
    exact keyConsistent_mapSet _ e.detail ih

theorem keyConsistent_foldl {α : Type} (l : List (EIP6963AnnounceProviderEvent α)) :
    ∀ st : SysState α, keyConsistent st.registry →
      keyConsistent ((l.foldl processAnnounceEvent st).registry) := by
  induction l with
  | nil => intro st h; exact h
  | cons e t ih =>
    intro st h
    rw [List.foldl_cons]
    exact ih (processAnnounceEvent st e)
      (keyConsistent_iterate e st.announceListeners st.registry h)

/-- C1: invoking `requestEIP6963Providers` with no `window` fails
synchronously with the environment error and does nothing else: the result
is exactly the untouched state paired with the thrown `Error`, so no
listener is attached, no request event is dispatched, and the registry is
left exactly unchanged. -/
theorem requestEIP6963Providers_no_window {α : Type}
    (sync : List (EIP6963AnnounceProviderEvent α)) (st : SysState α) :
    requestEIP6963Providers false sync st
        = (st, Except.error (JsError.error windowErrorMessage)) ∧
    ((requestEIP6963Providers false sync st).1).registry = st.registry ∧
    ((requestEIP6963Providers false sync st).1).announceListeners = st.announceListeners ∧
    ((requestEIP6963Providers false sync st).1).dispatched = st.dispatched :=
  ⟨rfl, rfl, rfl, rfl⟩

/-- C2: with the announce listener attached and a duplicate-free registry,
announcing detail d1 and then d2 under the same identifier leaves exactly d2
registered for that identifier: lookup yields d2, the registry holds a
single entry under the identifier, and d1 is gone whenever it differs from
d2 — re-announcement is an overwrite, not an error. -/
theorem announce_upsert_last_write_wins {α : Type} (st : SysState α) (id : String)
    (d1 d2 : EIP6963ProviderDetail α)
    (hL : 0 < st.announceListeners) (hN : (st.registry.map Prod.fst).Nodup)
    (h1 : d1.info.uuid = id) (h2 : d2.info.uuid = id) :
    mapGet ((processAnnounceEvent (processAnnounceEvent st ⟨d1⟩) ⟨d2⟩).registry) id = some d2 ∧
    entriesFor ((processAnnounceEvent (processAnnounceEvent st ⟨d1⟩) ⟨d2⟩).registry) id
      = [(id, d2)] ∧
    (d1 ≠ d2 → (id, d1) ∉ (processAnnounceEvent (processAnnounceEvent st ⟨d1⟩) ⟨d2⟩).registry) := by
  have hL1 : 0 < (processAnnounceEvent st ⟨d1⟩).announceListeners := by
    rw [processAnnounceEvent_announceListeners]; exact hL
  have hr1 : (processAnnounceEvent st ⟨d1⟩).registry = mapSet st.registry id d1 := by
    rw [processAnnounceEvent_registry st ⟨d1⟩ hL]
    show mapSet st.registry d1.info.uuid d1 = mapSet st.registry id d1
    rw [h1]
  have hr2 : (processAnnounceEvent (processAnnounceEvent st ⟨d1⟩) ⟨d2⟩).registry
      = mapSet (mapSet st.registry id d1) id d2 := by
    rw [processAnnounceEvent_registry (processAnnounceEvent st ⟨d1⟩) ⟨d2⟩ hL1, hr1]
    show mapSet (mapSet st.registry id d1) d2.info.uuid d2
        = mapSet (mapSet st.registry id d1) id d2
    rw [h2]
  have hN1 : ((mapSet st.registry id d1).map Prod.fst).Nodup :=
    keysNodup_mapSet st.registry id d1 hN
  refine ⟨?_, ?_, ?_⟩
  · rw [hr2]; exact mapGet_mapSet_self (mapSet st.registry id d1) id d2
  · rw [hr2]; exact entriesFor_mapSet_self (mapSet st.registry id d1) id d2 hN1
  · intro hne hmem
    rw [hr2] at hmem
    have hfil : (id, d1) ∈ entriesFor (mapSet (mapSet st.registry id d1) id d2) id := by
      simp [entriesFor, List.mem_filter, hmem]
    rw [entriesFor_mapSet_self (mapSet st.registry id d1) id d2 hN1] at hfil
    simp at hfil
    exact hne hfil

/-- Witness for C2: one listener attached, empty registry, two concrete
announcements for the identifier "a" — lookup yields the second detail. -/
theorem announce_upsert_last_write_wins_witness :
    0 < (SysState.mk ([] : List (String × EIP6963ProviderDetail Nat)) 1 []).announceListeners ∧
    mapGet ((processAnnounceEvent (processAnnounceEvent
        (SysState.mk ([] : List (String × EIP6963ProviderDetail Nat)) 1 [])
        ⟨EIP6963ProviderDetail.mk (EIP6963ProviderInfo.mk "a" "Wallet1" "icon1" "com.w1") 1⟩)
        ⟨EIP6963ProviderDetail.mk (EIP6963ProviderInfo.mk "a" "Wallet2" "icon2" "com.w2") 2⟩).registry) "a"
      = some (EIP6963ProviderDetail.mk (EIP6963ProviderInfo.mk "a" "Wallet2" "icon2" "com.w2") 2) :=
  ⟨Nat.one_pos,
   (announce_upsert_last_write_wins
      (SysState.mk ([] : List (String × EIP6963ProviderDetail Nat)) 1 []) "a"
      (EIP6963ProviderDetail.mk (EIP6963ProviderInfo.mk "a" "Wallet1" "icon1" "com.w1") 1)
      (EIP6963ProviderDetail.mk (EIP6963ProviderInfo.mk "a" "Wallet2" "icon2" "com.w2") 2)
      Nat.one_pos (by simp) rfl rfl).1⟩

/-- C3: every window-bearing discovery call returns the single module-level
map reference `eip6963Providers` — the same instance every time, not a copy
— and that reference is live: an announcement processed after the call is
visible by dereferencing the value the earlier call returned, without
re-invoking discovery. -/
theorem requestEIP6963Providers_returns_live_registry {α : Type}
    (sync : List (EIP6963AnnounceProviderEvent α)) (st : SysState α)
    (e : EIP6963AnnounceProviderEvent α) :
    (requestEIP6963Providers true sync st).2 = Except.ok MapRef.eip6963Providers ∧
    mapGet (readRef (processAnnounceEvent ((requestEIP6963Providers true sync st).1) e)
        MapRef.eip6963Providers) e.detail.info.uuid = some e.detail := by
  constructor
  · rw [requestEIP6963Providers_true_eq]
  · have hL : 0 < ((requestEIP6963Providers true sync st).1).announceListeners := by
      rw [requestEIP6963Providers_true_announceListeners]
      exact Nat.succ_pos st.announceListeners
    show mapGet ((processAnnounceEvent ((requestEIP6963Providers true sync st).1) e).registry)
        e.detail.info.uuid = some e.detail
    rw [processAnnounceEvent_registry ((requestEIP6963Providers true sync st).1) e hL]
    exact mapGet_mapSet_self ((requestEIP6963Providers true sync st).1).registry
      e.detail.info.uuid e.detail

/-- C4 counterexample: on a fresh module, two discovery calls leave two
announce listeners attached to the window, not one — the second call does
not reuse the subscription made by the first call. -/
theorem second_call_adds_listener :
    (discoverN Nat 2).announceListeners = 2 ∧
    ¬ (discoverN Nat 2).announceListeners = 1 :=
  ⟨rfl, by decide⟩

/-- C4 amended: each window-bearing discovery call attaches one additional
announce listener, so after n discovery calls on a fresh module exactly n
listeners are subscribed; the duplicates are harmless for registry
contents, because with any positive number of attached listeners delivering
an announce event amounts to the single upsert. -/
theorem listener_count_grows_per_call {α : Type} :
    (∀ (sync : List (EIP6963AnnounceProviderEvent α)) (st : SysState α),
      ((requestEIP6963Providers true sync st).1).announceListeners = st.announceListeners + 1) ∧
    (∀ n : Nat, (discoverN α n).announceListeners = n) ∧
    (∀ (st : SysState α) (e : EIP6963AnnounceProviderEvent α), 0 < st.announceListeners →
      (processAnnounceEvent st e).registry = mapSet st.registry e.detail.info.uuid e.detail) := by
  refine ⟨requestEIP6963Providers_true_announceListeners, ?_, ?_⟩
  · intro n
    induction n with
    | zero => rfl
    | succ m ih =>
      show ((requestEIP6963Providers true [] (discoverN α m)).1).announceListeners = m + 1
      rw [requestEIP6963Providers_true_announceListeners, ih]
  · intro st e h
    exact processAnnounceEvent_registry st e h

/-- Witness for the amended C4 statement: three calls leave three listeners,
and a concrete two-listener state still performs the plain upsert. -/
theorem listener_count_grows_per_call_witness :
    (discoverN Nat 3).announceListeners = 3 ∧
    0 < (SysState.mk ([] : List (String × EIP6963ProviderDetail Nat)) 2 []).announceListeners ∧
    (processAnnounceEvent (SysState.mk ([] : List (String × EIP6963ProviderDetail Nat)) 2 [])
        ⟨EIP6963ProviderDetail.mk (EIP6963ProviderInfo.mk "a" "n" "i" "r") 7⟩).registry
      = mapSet ([] : List (String × EIP6963ProviderDetail Nat)) "a"
          (EIP6963ProviderDetail.mk (EIP6963ProviderInfo.mk "a" "n" "i" "r") 7) :=
  ⟨(@listener_count_grows_per_call Nat).2.1 3, Nat.succ_pos 1,
   (@listener_count_grows_per_call Nat).2.2
     (SysState.mk ([] : List (String × EIP6963ProviderDetail Nat)) 2 [])
     ⟨EIP6963ProviderDetail.mk (EIP6963ProviderInfo.mk "a" "n" "i" "r") 7⟩ (Nat.succ_pos 1)⟩

/-- C5: the registry never shrinks — delivering an announce event and
running discovery both keep every key that was present — and processing any
sequence of announce events with pairwise distinct identifiers on a fresh
registry yields exactly one entry per identifier, with the size independent
of the arrival order. -/
theorem registry_never_shrinks {α : Type} :
    (∀ (st : SysState α) (e : EIP6963AnnounceProviderEvent α) (k : String),
      (∃ d, mapGet st.registry k = some d) →
      ∃ d, mapGet ((processAnnounceEvent st e).registry) k = some d) ∧
    (∀ (w : Bool) (sync : List (EIP6963AnnounceProviderEvent α)) (st : SysState α) (k : String),
      (∃ d, mapGet st.registry k = some d) →
      ∃ d, mapGet (((requestEIP6963Providers w sync st).1).registry) k = some d) ∧
    (∀ (l : List (EIP6963AnnounceProviderEvent α)) (st : SysState α),
      st.registry = [] → 0 < st.announceListeners →
      (l.map (fun e => e.detail.info.uuid)).Nodup →
      (l.foldl processAnnounceEvent st).registry.length = l.length) ∧
    (∀ (l l2 : List (EIP6963AnnounceProviderEvent α)) (st : SysState α),
      l.Perm l2 → st.registry = [] → 0 < st.announceListeners →
      (l.map (fun e => e.detail.info.uuid)).Nodup →
      (l.foldl processAnnounceEvent st).registry.length
        = (l2.foldl processAnnounceEvent st).registry.length) := by
  have hlen : ∀ (l : List (EIP6963AnnounceProviderEvent α)) (st : SysState α),
      st.registry = [] → 0 < st.announceListeners →
      (l.map (fun e => e.detail.info.uuid)).Nodup →
      (l.foldl processAnnounceEvent st).registry.length = l.length := by
    intro l st hreg hL hN
    have hF : ∀ e ∈ l, e.detail.info.uuid ∉ st.registry.map Prod.fst := by
      intro e he
      rw [hreg]
      simp
    have hfold := (foldl_process_fresh l st hL hN hF).2
    rw [hfold, hreg]
    simp
  refine ⟨?_, ?_, hlen, ?_⟩
  · intro st e k h
    exact processAnnounceEvent_preserves st e k h
  · intro w sync st k h
    cases w with
    | false => exact h
    | true =>
      rw [requestEIP6963Providers_true_eq]
      exact foldl_process_preserves sync (afterDispatch st) k h
  · intro l l2 st hp hreg hL hN
    have hN2 : (l2.map (fun e => e.detail.info.uuid)).Nodup :=
      (hp.map (fun e => e.detail.info.uuid)).nodup hN
    rw [hlen l st hreg hL hN, hlen l2 st hreg hL hN2, hp.length_eq]

/-- Witness for C5: two announcements with distinct identifiers on a fresh
one-listener state leave a registry of size two. -/
theorem registry_never_shrinks_witness :
    (SysState.mk ([] : List (String × EIP6963ProviderDetail Nat)) 1 []).registry = [] ∧
    (([⟨EIP6963ProviderDetail.mk (EIP6963ProviderInfo.mk "a" "A" "ia" "ra") 1⟩,
       ⟨EIP6963ProviderDetail.mk (EIP6963ProviderInfo.mk "b" "B" "ib" "rb") 2⟩]
        : List (EIP6963AnnounceProviderEvent Nat)).foldl processAnnounceEvent
      (SysState.mk ([] : List (String × EIP6963ProviderDetail Nat)) 1 [])).registry.length = 2 :=
  ⟨rfl,
   (@registry_never_shrinks Nat).2.2.1
     ([⟨EIP6963ProviderDetail.mk (EIP6963ProviderInfo.mk "a" "A" "ia" "ra") 1⟩,
       ⟨EIP6963ProviderDetail.mk (EIP6963ProviderInfo.mk "b" "B" "ib" "rb") 2⟩])
     (SysState.mk ([] : List (String × EIP6963ProviderDetail Nat)) 1 [])
     rfl Nat.one_pos (by decide)⟩

/-- C6: the announce listener is attached before the request event is
dispatched, so an announcer responding synchronously during that dispatch is
already in the mapping the very same call returns: with a single synchronous
announcer the entry is the announced detail, and every synchronous announcer
has its identifier present. -/
theorem sync_announcement_visible_in_return {α : Type} :
    (∀ (st : SysState α) (e : EIP6963AnnounceProviderEvent α),
      mapGet (readRef ((requestEIP6963Providers true [e] st).1) MapRef.eip6963Providers)
          e.detail.info.uuid = some e.detail) ∧
    (∀ (st : SysState α) (sync : List (EIP6963AnnounceProviderEvent α))
        (e : EIP6963AnnounceProviderEvent α), e ∈ sync →
      ∃ d, mapGet (((requestEIP6963Providers true sync st).1).registry)
          e.detail.info.uuid = some d) := by
  constructor
  · intro st e
    have h1 : (requestEIP6963Providers true [e] st).1
        = processAnnounceEvent (afterDispatch st) e := rfl
    have hL : 0 < (afterDispatch st).announceListeners := Nat.succ_pos st.announceListeners
    show mapGet (((requestEIP6963Providers true [e] st).1).registry)
        e.detail.info.uuid = some e.detail
    rw [h1, processAnnounceEvent_registry (afterDispatch st) e hL]
    exact mapGet_mapSet_self (afterDispatch st).registry e.detail.info.uuid e.detail
  · intro st sync e he
    have h1 : (requestEIP6963Providers true sync st).1
        = sync.foldl processAnnounceEvent (afterDispatch st) := rfl
    rw [h1]
    exact foldl_process_mem sync (afterDispatch st) (Nat.succ_pos st.announceListeners) e he

/-- Witness for C6: a fresh module with one synchronous announcer of
identifier "x" — after the call, "x" is registered. -/
theorem sync_announcement_visible_in_return_witness :
    (⟨EIP6963ProviderDetail.mk (EIP6963ProviderInfo.mk "x" "N" "I" "R") 9⟩
        : EIP6963AnnounceProviderEvent Nat) ∈
      [(⟨EIP6963ProviderDetail.mk (EIP6963ProviderInfo.mk "x" "N" "I" "R") 9⟩
        : EIP6963AnnounceProviderEvent Nat)] ∧
    ∃ d, mapGet (((requestEIP6963Providers true
        [(⟨EIP6963ProviderDetail.mk (EIP6963ProviderInfo.mk "x" "N" "I" "R") 9⟩
          : EIP6963AnnounceProviderEvent Nat)] (initialState Nat)).1).registry) "x" = some d :=
  ⟨List.mem_singleton.mpr rfl,
   (@sync_announcement_visible_in_return Nat).2 (initialState Nat)
     [⟨EIP6963ProviderDetail.mk (EIP6963ProviderInfo.mk "x" "N" "I" "R") 9⟩]
     ⟨EIP6963ProviderDetail.mk (EIP6963ProviderInfo.mk "x" "N" "I" "R") 9⟩
     (List.mem_singleton.mpr rfl)⟩

/-- C7 counterexample: the event type tags in the source are not the bare strings
"announceProvider" and "requestProvider" — both carry the "eip6963:" scheme
in front. -/
theorem event_tags_not_bare :
    ¬ (Eip6963EventName.value Eip6963EventName.eip6963announceProvider = "announceProvider"
        ∧ Eip6963EventName.value Eip6963EventName.eip6963requestProvider = "requestProvider") := by
  decide

/-- C7 amended: the wire-level tags are exactly "eip6963:announceProvider"
for announce events and "eip6963:requestProvider" for request events, and a
discovery call dispatches its request event with that exact tag. -/
theorem event_tags_verbatim {α : Type}
    (sync : List (EIP6963AnnounceProviderEvent α)) (st : SysState α) :
    Eip6963EventName.value Eip6963EventName.eip6963announceProvider
      = "eip6963:announceProvider" ∧
    Eip6963EventName.value Eip6963EventName.eip6963requestProvider
      = "eip6963:requestProvider" ∧
    ((requestEIP6963Providers true sync st).1).dispatched
      = st.dispatched ++ [PlainEvent.mk "eip6963:requestProvider"] := by
  refine ⟨rfl, rfl, ?_⟩
  rw [requestEIP6963Providers_true_eq]
  exact foldl_process_dispatched sync (afterDispatch st)

/-- C8 counterexample: an announce event whose detail is null, and one whose
detail lacks an info object, both make the listener throw TypeError while it
evaluates event.detail.info.uuid — malformed announcements of these shapes
do raise an error. -/
theorem malformed_announcement_type_error :
    announceListenerJs ([] : List (JsValue × JsDetailObj Nat)) (JsAnnounceEvent.mk none)
        = Except.error JsError.typeError ∧
    announceListenerJs ([] : List (JsValue × JsDetailObj Nat))
        (JsAnnounceEvent.mk (some (JsDetailObj.mk none none)))
        = Except.error JsError.typeError :=
  ⟨rfl, rfl⟩

/-- C8 amended: whenever the detail of the announcement and its info object are
present, the listener stores the announcement as-is with no validation and
no error — even an undefined, missing, or ill-typed uuid field is used as
the stored key verbatim; only an announcement whose detail or detail.info
object is absent faults, with a TypeError during property access. -/
theorem announcement_stored_without_validation {α : Type}
    (reg : List (JsValue × JsDetailObj α)) (i : JsInfoObj) (p : Option α) :
    announceListenerJs reg (JsAnnounceEvent.mk (some (JsDetailObj.mk (some i) p)))
      = Except.ok (mapSet reg i.uuid (JsDetailObj.mk (some i) p)) :=
  rfl

/-- C9: the discovery operation itself never writes the registry — the
dispatched request event is determined by its type tag alone, a call with no
announce event processed returns the registry contents exactly as they were,
and on a fresh module the call yields an empty mapping with a successful
result. -/
theorem request_event_no_payload {α : Type} :
    (∀ e : PlainEvent, e = PlainEvent.mk e.type) ∧
    (∀ (sync : List (EIP6963AnnounceProviderEvent α)) (st : SysState α),
      ((requestEIP6963Providers true sync st).1).dispatched
        = st.dispatched
            ++ [PlainEvent.mk (Eip6963EventName.value Eip6963EventName.eip6963requestProvider)]) ∧
    (∀ st : SysState α, ((requestEIP6963Providers true [] st).1).registry = st.registry) ∧
    ((requestEIP6963Providers true ([] : List (EIP6963AnnounceProviderEvent α))
        (initialState α)).1).registry = [] ∧
    (requestEIP6963Providers true ([] : List (EIP6963AnnounceProviderEvent α))
        (initialState α)).2 = Except.ok MapRef.eip6963Providers := by
  refine ⟨fun e => rfl, ?_, fun st => rfl, rfl, rfl⟩
  intro sync st
  rw [requestEIP6963Providers_true_eq]
  exact foldl_process_dispatched sync (afterDispatch st)

/-- C10: key–value consistency — the fresh registry is consistent, and both
delivering an announce event and running discovery preserve that the key of
every stored entry is exactly the uuid field of its stored detail. -/
theorem registry_key_matches_detail_uuid {α : Type} :
    keyConsistent ((initialState α).registry) ∧
    (∀ (st : SysState α) (e : EIP6963AnnounceProviderEvent α),
      keyConsistent st.registry → keyConsistent ((processAnnounceEvent st e).registry)) ∧
    (∀ (w : Bool) (sync : List (EIP6963AnnounceProviderEvent α)) (st : SysState α),
      keyConsistent st.registry →
      keyConsistent (((requestEIP6963Providers w sync st).1).registry)) := by
  refine ⟨?_, ?_, ?_⟩
  · intro p hp
    cases hp
  · intro st e h
    exact keyConsistent_iterate e st.announceListeners st.registry h
  · intro w sync st h
    cases w with
    | false => exact h
    | true =>
      rw [requestEIP6963Providers_true_eq]
      exact keyConsistent_foldl sync (afterDispatch st) h

/-- Witness for C10: a concrete announcement on a fresh one-listener state
leaves a key-consistent registry. -/
theorem registry_key_matches_detail_uuid_witness :
    keyConsistent ((initialState Nat).registry) ∧
    keyConsistent ((processAnnounceEvent
        (SysState.mk ([] : List (String × EIP6963ProviderDetail Nat)) 1 [])
        ⟨EIP6963ProviderDetail.mk (EIP6963ProviderInfo.mk "u" "n" "i" "r") 3⟩).registry) :=
  ⟨(@registry_key_matches_detail_uuid Nat).1,
   (@registry_key_matches_detail_uuid Nat).2.1
     (SysState.mk ([] : List (String × EIP6963ProviderDetail Nat)) 1 [])
     ⟨EIP6963ProviderDetail.mk (EIP6963ProviderInfo.mk "u" "n" "i" "r") 3⟩
     (fun p hp => absurd hp (List.not_mem_nil p))⟩

end Web3EIP6963
